import Mathlib

/-!
Shallow embedding of the GOG Galaxy game-store adapter (`src/index.ts`).

Promises that always settle are embedded as plain values; a promise that can
reject is embedded as `Except StoreError`.  The OS-level collaborators
(filesystem, Windows registry, the dynamic `winapi-bindings` import and the
per-game `gameinfo` read-and-JSON-parse step) are opaque capability providers
and appear as fields of an `Env` record; each of their failure modes is a
separate branch of the corresponding result type.  The adapter instance state
(`mClientPath`, `mCache`) is threaded explicitly.
-/

/-- `STORE_ID` constant from the source: identifier of this provider. -/
def STORE_ID : String := "gog"

/-- `GOG_EXEC` constant from the source: the Windows client executable name. -/
def GOG_EXEC : String := "GalaxyClient.exe"

/-- One discovered installed title (`types.IGameStoreEntry`). -/
structure GameStoreEntry where
  appid : String
  name : String
  gamePath : String
  gameStoreId : String
deriving DecidableEq, Repr

/-- Launch instructions (`types.IExecInfo`): executable plus ordered arguments. -/
structure ExecInfo where
  execPath : String
  arguments : List String
deriving DecidableEq, Repr

/-- Errors a public promise of the adapter can reject with:
`gameEntryNotFound` embeds `new types.GameEntryNotFound(query, storeId)`,
`plainError` embeds `new Error(message)` (the only such rejection reachable
from the public interface is `'GOG Galaxy not installed'`). -/
inductive StoreError where
  | gameEntryNotFound (query : String) (storeId : String)
  | plainError (message : String)
deriving DecidableEq, Repr

/-- One registry subkey of `SOFTWARE\WOW6432Node\GOG.com\Games` together with
the outcome of the three `RegGetValue` reads the enumerator performs on it;
`none` means that read throws. -/
structure RegGameKey where
  keyName : String
  gameID : Option String
  path : Option String
  startMenu : Option String

/-- Outcome of `winapi.WithRegOpen` on the games key: the enumerated subkeys,
an ENOENT failure, or any other failure. -/
inductive RegOpenResult where
  | ok (keys : List RegGameKey)
  | errENOENT
  | errOther

/-- Parsed shape of a per-game `gameinfo` JSON file; each field is `none` when
absent from the JSON object.  Values are strings, matching the entry schema. -/
structure GameInfo where
  gameId : Option String
  name : Option String
  title : Option String
  installDirectory : Option String

/-- Outcome of `fs.readFile(gameInfoPath)` followed by `JSON.parse`:
the read rejects, the parse throws, or a parsed record is produced. -/
inductive ReadInfoResult where
  | readFail
  | parseFail
  | parsed (info : GameInfo)

/-- The OS environment as seen through the external capability providers.
`platform` is the `process.platform` string; `fsExists path` is true exactly
when `fs.stat path` succeeds; `readdir` is `none` when `fs.readdir` rejects;
`winapiAvailable` is whether the dynamic `import('winapi-bindings')` resolves. -/
structure Env where
  platform : String
  home : String
  winapiAvailable : Bool
  regGogGames : RegOpenResult
  fsExists : String → Bool
  readdir : String → Option (List String)
  readGameInfo : String → ReadInfoResult

/-- Adapter instance state: the settled value of the `mClientPath` promise
(`none` embeds the `undefined` field) and the settled value of the memoized
`mCache` promise (`none` when the cache is unset). -/
structure LauncherState where
  mClientPath : Option String
  mCache : Option (List GameStoreEntry)
deriving Repr

/-- Separator used by node's `path.join` on the running platform. -/
def sep (platform : String) : String :=
  if platform == "win32" then "\\" else "/"

/-- Embeds node's `path.join(a, b)` for already-normalized, nonempty segments. -/
def pathJoin (platform : String) (a b : String) : String :=
  a ++ sep platform ++ b

/-- Embeds node's variadic `path.join` over a base followed by segments. -/
def pathJoins (platform : String) (base : String) (parts : List String) : String :=
  parts.foldl (pathJoin platform) base

/-- JavaScript truthiness of a string value: only `''` is falsy. -/
def jsTruthy (s : String) : Bool := s != ""

/-- Embeds the JavaScript expression `v || d` for an optional string `v`:
the fallback `d` is taken when `v` is `undefined` or the empty string. -/
def jsOr (v : Option String) (d : String) : String :=
  match v with
  | some s => if jsTruthy s then s else d
  | none => d

/-! Regular expressions.  `findByName` builds `new RegExp('^' + p + '$')` and
calls `.test(name)`; the surrounding anchors force the whole of `name` to
match `p`, so the embedding compiles `p` and runs a whole-string match by
Brzozowski derivatives.  Compilation covers the pattern subset consisting of
literal characters and backslash escapes of metacharacters; a pattern outside
this subset is out of the model (`none`, conservatively reported as no match)
and no theorem below depends on that branch. -/

/-- Regular-expression syntax used by the matcher. -/
inductive Regex where
  | fail
  | eps
  | lit (c : Char)
  | seq (r1 r2 : Regex)
  | alt (r1 r2 : Regex)
deriving DecidableEq, Repr

/-- Whether a regex accepts the empty string. -/
def nullable : Regex → Bool
  | .fail => false
  | .eps => true
  | .lit _ => false
  | .seq a b => nullable a && nullable b
  | .alt a b => nullable a || nullable b

/-- Brzozowski derivative of a regex with respect to one character. -/
def rderiv : Regex → Char → Regex
  | .fail, _ => .fail
  | .eps, _ => .fail
  | .lit c, d => if c = d then .eps else .fail
  | .seq a b, d =>
    if nullable a then .alt (.seq (rderiv a d) b) (rderiv b d)
    else .seq (rderiv a d) b
  | .alt a b, d => .alt (rderiv a d) (rderiv b d)

/-- Whole-string acceptance by iterated derivatives. -/
def accepts : Regex → List Char → Bool
  | r, [] => nullable r
  | r, c :: cs => accepts (rderiv r c) cs

/-- ECMAScript regular-expression metacharacters (and the escape character). -/
def isMeta (c : Char) : Bool :=
  c ∈ ['\\', '^', '$', '.', '*', '+', '?', '(', ')', '[', ']', '\x7b', '\x7d', '|']

/-- Compile a pattern string (as characters) to a regex; `none` when the
pattern falls outside the supported subset. -/
def compileChars : List Char → Option Regex
  | [] => some Regex.eps
  | c :: rest =>
    if c = '\\' then
      match rest with
      | [] => none
      | d :: rest2 =>
        if isMeta d then (compileChars rest2).map (Regex.seq (Regex.lit d))
        else none
    else if isMeta c then none
    else (compileChars rest).map (Regex.seq (Regex.lit c))

/-- Embeds `new RegExp('^' + p + '$').test(s)` for patterns in the supported
subset: compile `p` and match it against the whole of `s`. -/
def reTestAnchored (p s : String) : Bool :=
  match compileChars p.toList with
  | some r => accepts r s.toList
  | none => false

/-- A pattern made only of non-metacharacters, the subset the claims use. -/
def isLiteralPattern (p : String) : Bool :=
  p.toList.all (fun c => !(isMeta c))

/-! The adapter operations, transcribed from `src/index.ts`. -/

/-- One iteration of the `keys.map` body in `getGameEntriesWindows`: the three
`RegGetValue` reads in source order; any throwing read yields `undefined`
(here `none`), which the trailing `.filter` drops. -/
def regEntry (k : RegGameKey) : Option GameStoreEntry :=
  match k.gameID with
  | none => none
  | some gid =>
    match k.path with
    | none => none
    | some gp =>
      match k.startMenu with
      | none => none
      | some nm =>
        some { appid := gid, gamePath := gp, name := nm, gameStoreId := STORE_ID }

/-- `getGameEntriesWindows`: short-circuits to `[]` when `mClientPath` is
unset; a failed `winapi-bindings` import, an ENOENT from `WithRegOpen`, and
any other `WithRegOpen` failure (rejected, then caught by the trailing
`.catch`) all resolve to `[]`. -/
def getGameEntriesWindows (env : Env) (st : LauncherState) : List GameStoreEntry :=
  match st.mClientPath with
  | none => []
  | some _ =>
    if env.winapiAvailable then
      match env.regGogGames with
      | .ok keys => keys.filterMap regEntry
      | .errENOENT => []
      | .errOther => []
    else []

/-- Loop body of `getGameEntriesMacOS` for one candidate directory `gameId`:
read and parse its `gameinfo`, apply the `||` fallbacks for id and name, and
keep the candidate only when `installDirectory` is truthy and `fs.stat` on it
succeeds; every failure skips just this candidate. -/
def macEntry (env : Env) (gamesPath gameId : String) : Option GameStoreEntry :=
  match env.readGameInfo
      (pathJoin env.platform (pathJoin env.platform gamesPath gameId) "gameinfo") with
  | .readFail => none
  | .parseFail => none
  | .parsed info =>
    let appid := jsOr info.gameId gameId
    let name := jsOr info.name (jsOr info.title ("GOG Game " ++ appid))
    match info.installDirectory with
    | none => none
    | some gp =>
      if jsTruthy gp then
        if env.fsExists gp then
          some { appid := appid, name := name, gamePath := gp, gameStoreId := STORE_ID }
        else none
      else none

/-- `getGameEntriesMacOS`: resolve the data directory under `$HOME`; a failed
stat of it or a failed readdir of its `games` subdirectory yields `[]`;
otherwise process the candidates in listing order. -/
def getGameEntriesMacOS (env : Env) : List GameStoreEntry :=
  let gogDataPath :=
    pathJoins env.platform env.home ["Library", "Application Support", "GOG.com", "Galaxy"]
  if env.fsExists gogDataPath then
    let gamesPath := pathJoin env.platform gogDataPath "games"
    match env.readdir gamesPath with
    | none => []
    | some gameDirs => gameDirs.filterMap (macEntry env gamesPath)
  else []

/-- `getGameEntries`: dispatch on `process.platform`. -/
def getGameEntries (env : Env) (st : LauncherState) : List GameStoreEntry :=
  if env.platform == "win32" then getGameEntriesWindows env st
  else if env.platform == "darwin" then getGameEntriesMacOS env
  else []

/-- `allGames`: return the memoized cache, populating it by one enumeration
when unset.  The third component instruments how many times `getGameEntries`
was invoked by this call (the source invokes it exactly in the branch where
`mCache` is unset). -/
def allGames (env : Env) (st : LauncherState) :
    List GameStoreEntry × LauncherState × Nat :=
  match st.mCache with
  | some cache => (cache, st, 0)
  | none =>
    let entries := getGameEntries env st
    (entries, { st with mCache := some entries }, 1)

/-- `reloadGames`: unconditionally overwrite the cache with a fresh
enumeration; the source promise resolves `void`, so only the updated state is
returned. -/
def reloadGames (env : Env) (st : LauncherState) : LauncherState :=
  { st with mCache := some (getGameEntries env st) }

/-- `getGameStorePath`: resolves `undefined` (here `Except.ok none`) when
`mClientPath` is unset; otherwise the bundle path on darwin, or the base path
joined with `GalaxyClient.exe`. -/
def getGameStorePath (env : Env) (st : LauncherState) :
    Except StoreError (Option String) :=
  match st.mClientPath with
  | none => Except.ok none
  | some basePath =>
    if env.platform == "darwin" then Except.ok (some basePath)
    else Except.ok (some (pathJoin env.platform basePath "GalaxyClient.exe"))

/-- `findByName`: anchored-pattern search through `allGames()` in snapshot
order; no match rejects with `GameEntryNotFound(pattern, STORE_ID)`. -/
def findByName (env : Env) (st : LauncherState) (namePattern : String) :
    Except StoreError GameStoreEntry × LauncherState :=
  let res := allGames env st
  match res.1.find? (fun e => reTestAnchored namePattern e.name) with
  | some e => (Except.ok e, res.2.1)
  | none => (Except.error (StoreError.gameEntryNotFound namePattern STORE_ID), res.2.1)

/-- Argument of `findByAppId`: the source accepts one id or an array of ids. -/
inductive AppIdArg where
  | single (id : String)
  | multi (ids : List String)

/-- The matcher `findByAppId` selects: membership for an array argument,
strict equality for a scalar one. -/
def appIdMatcher (arg : AppIdArg) (e : GameStoreEntry) : Bool :=
  match arg with
  | .multi ids => ids.contains e.appid
  | .single id => id == e.appid

/-- Query text carried by the not-found rejection of `findByAppId`:
`appId.join(', ')` for an array, the id itself otherwise. -/
def appIdQuery (arg : AppIdArg) : String :=
  match arg with
  | .multi ids => String.intercalate ", " ids
  | .single id => id

/-- `findByAppId`: first entry accepted by the matcher, in snapshot order;
no match rejects with `GameEntryNotFound(query, STORE_ID)`. -/
def findByAppId (env : Env) (st : LauncherState) (arg : AppIdArg) :
    Except StoreError GameStoreEntry × LauncherState :=
  let res := allGames env st
  match res.1.find? (appIdMatcher arg) with
  | some e => (Except.ok e, res.2.1)
  | none => (Except.error (StoreError.gameEntryNotFound (appIdQuery arg) STORE_ID), res.2.1)

/-- `getExecInfo`: resolve the id against the snapshot (rejecting with
`GameEntryNotFound` when absent), then require `mClientPath` (rejecting with
`new Error('GOG Galaxy not installed')` when unset), then build the
platform-specific execution plan. -/
def getExecInfo (env : Env) (st : LauncherState) (appId : String) :
    Except StoreError ExecInfo × LauncherState :=
  let res := allGames env st
  match res.1.find? (fun e => e.appid == appId) with
  | none => (Except.error (StoreError.gameEntryNotFound appId STORE_ID), res.2.1)
  | some gameEntry =>
    match res.2.1.mClientPath with
    | none => (Except.error (StoreError.plainError "GOG Galaxy not installed"), res.2.1)
    | some basePath =>
      if env.platform == "darwin" then
        (Except.ok
          { execPath := basePath,
            arguments := ["/gameId=" ++ gameEntry.appid, "/command=runGame",
                          "path=\"" ++ gameEntry.gamePath ++ "\""] }, res.2.1)
      else
        (Except.ok
          { execPath := pathJoin env.platform basePath GOG_EXEC,
            arguments := ["/command=runGame", "/gameId=" ++ gameEntry.appid,
                          "path=\"" ++ gameEntry.gamePath ++ "\""] }, res.2.1)

/-- `fileExists`: `fs.stat` resolving means `true`, rejecting means `false`. -/
def fileExists (env : Env) (filePath : String) : Bool :=
  env.fsExists filePath

/-- `identifyGame`: evaluate the `gog.ico` marker check and the caller's
fallback, return their disjunction; the second component records whether the
inconclusive-identification warning was logged (exactly when they disagree). -/
def identifyGame (env : Env) (gamePath : String) (fallback : String → Bool) :
    Bool × Bool :=
  let custom := fileExists env (pathJoin env.platform gamePath "gog.ico")
  let fb := fallback gamePath
  (custom || fb, custom != fb)

/-! Shared concrete inputs used by several theorems.  `envMacTest` mirrors the
macOS scenario of the repository's jest suite: candidate directories `12345`
and `67890`, metadata naming install directories of which only
`/Games/Test Game 1` exists on disk. -/

/-- Data directory of the macOS scenarios (`$HOME = /Users/test`). -/
def macDataPath : String := "/Users/test/Library/Application Support/GOG.com/Galaxy"

/-- The entry the macOS scenario produces for candidate `12345`. -/
def entry12345 : GameStoreEntry :=
  { appid := "12345", name := "Test Game 1", gamePath := "/Games/Test Game 1",
    gameStoreId := "gog" }

/-- The entry the alternative macOS scenario produces for candidate `67890`. -/
def entry67890 : GameStoreEntry :=
  { appid := "67890", name := "Test Game 2", gamePath := "/Games/Test Game 2",
    gameStoreId := "gog" }

/-- macOS environment: both candidates have metadata, only the install
directory of `12345` exists on disk. -/
def envMacTest : Env :=
  { platform := "darwin", home := "/Users/test", winapiAvailable := false,
    regGogGames := RegOpenResult.errOther,
    fsExists := fun s => s == macDataPath || s == "/Games/Test Game 1",
    readdir := fun s =>
      if s == macDataPath ++ "/games" then some ["12345", "67890"] else none,
    readGameInfo := fun s =>
      if s == macDataPath ++ "/games/12345/gameinfo" then
        ReadInfoResult.parsed
          { gameId := some "12345", name := some "Test Game 1", title := none,
            installDirectory := some "/Games/Test Game 1" }
      else if s == macDataPath ++ "/games/67890/gameinfo" then
        ReadInfoResult.parsed
          { gameId := some "67890", name := some "Test Game 2", title := none,
            installDirectory := some "/Games/Test Game 2" }
      else ReadInfoResult.readFail }

/-- macOS environment whose data directory is absent altogether. -/
def envMacAbsent : Env :=
  { envMacTest with fsExists := fun _ => false }

/-- macOS environment where the first candidate's metadata lacks
`installDirectory` while the second candidate is valid and present. -/
def envMacSkip : Env :=
  { envMacTest with
    fsExists := fun s => s == macDataPath || s == "/Games/Test Game 2",
    readGameInfo := fun s =>
      if s == macDataPath ++ "/games/12345/gameinfo" then
        ReadInfoResult.parsed
          { gameId := some "12345", name := some "Test Game 1", title := none,
            installDirectory := none }
      else if s == macDataPath ++ "/games/67890/gameinfo" then
        ReadInfoResult.parsed
          { gameId := some "67890", name := some "Test Game 2", title := none,
            installDirectory := some "/Games/Test Game 2" }
      else ReadInfoResult.readFail }

/-- Windows environment with no reachable registry data. -/
def envWinExec : Env :=
  { platform := "win32", home := "", winapiAvailable := false,
    regGogGames := RegOpenResult.errOther,
    fsExists := fun _ => false, readdir := fun _ => none,
    readGameInfo := fun _ => ReadInfoResult.readFail }

/-- Environment for a platform other than the two supported ones. -/
def envOther : Env :=
  { envWinExec with platform := "linux" }

/-- Adapter state right after construction on a machine without the client:
no client path, cache unset. -/
def stFresh : LauncherState :=
  { mClientPath := none, mCache := none }

/-- Adapter state of the Windows exec-plan scenario: detected base path
`C:\GOG Galaxy` and one cached entry. -/
def stExec : LauncherState :=
  { mClientPath := some "C:\\GOG Galaxy",
    mCache := some [{ appid := "9999", name := "Foo", gamePath := "C:\\Games\\Foo",
                      gameStoreId := "gog" }] }

/-! Acceptance lemmas for the derivative matcher, leading to the fact that an
anchored test against a metacharacter-free pattern is whole-string equality. -/

/-- The failing regex accepts nothing. -/
theorem accepts_fail (s : List Char) : accepts Regex.fail s = false := by
  induction s with
  | nil => rfl
  | cons c cs ih => simpa [accepts, rderiv] using ih

/-- Acceptance distributes over alternation. -/
theorem accepts_alt (s : List Char) :
    ∀ a b, accepts (Regex.alt a b) s = (accepts a s || accepts b s) := by
  induction s with
  | nil => intro a b; simp [accepts, nullable]
  | cons c cs ih => intro a b; simpa [accepts, rderiv] using ih (rderiv a c) (rderiv b c)

/-- A sequence headed by the failing regex accepts nothing. -/
theorem accepts_seq_fail (s : List Char) :
    ∀ b, accepts (Regex.seq Regex.fail b) s = false := by
  induction s with
  | nil => intro b; simp [accepts, nullable]
  | cons c cs ih => intro b; simpa [accepts, rderiv, nullable] using ih b

/-- A sequence headed by the empty-string regex accepts what its tail does. -/
theorem accepts_seq_eps (s : List Char) (b : Regex) :
    accepts (Regex.seq Regex.eps b) s = accepts b s := by
  cases s with
  | nil => simp [accepts, nullable]
  | cons c cs => simp [accepts, rderiv, nullable, accepts_alt, accepts_seq_fail]

/-- The regex a metacharacter-free pattern compiles to: one literal per
character, in sequence. -/
def mkLits (cs : List Char) : Regex :=
  cs.foldr (fun c r => Regex.seq (Regex.lit c) r) Regex.eps

/-- A sequence of literals accepts exactly the equal character list. -/
theorem accepts_mkLits (cs : List Char) :
    ∀ s, accepts (mkLits cs) s = decide (s = cs) := by
  induction cs with
  | nil =>
    intro s
    cases s with
    | nil => simp [mkLits, accepts, nullable]
    | cons c s2 => simp [mkLits, accepts, rderiv, accepts_fail]
  | cons c rest ih =>
    intro s
    cases s with
    | nil => simp [mkLits, accepts, nullable]
    | cons d s2 =>
      have hunfold : mkLits (c :: rest) = Regex.seq (Regex.lit c) (mkLits rest) := rfl
      by_cases hcd : c = d
      · subst hcd
        have h1 : accepts (mkLits (c :: rest)) (c :: s2) = accepts (mkLits rest) s2 := by
          rw [hunfold]
          show accepts (rderiv (Regex.seq (Regex.lit c) (mkLits rest)) c) s2 = _
          simp [rderiv, nullable, accepts_seq_eps]
        rw [h1, ih s2]
        simp
      · simp [hunfold, accepts, rderiv, nullable, hcd, accepts_seq_fail, Ne.symm hcd]

/-- Compilation of a metacharacter-free pattern yields its literal sequence. -/
theorem compileChars_literal (cs : List Char) (h : ∀ c ∈ cs, isMeta c = false) :
    compileChars cs = some (mkLits cs) := by
  induction cs with
  | nil => rfl
  | cons c rest ih =>
    have hc : isMeta c = false := h c (List.mem_cons_self c rest)
    have hbs : ¬ c = '\\' := by
      intro e
      rw [e] at hc
      simp [isMeta] at hc
    have ih2 := ih (fun d hd => h d (List.mem_cons_of_mem c hd))
    unfold compileChars
    rw [if_neg hbs, if_neg (by simp [hc]), ih2]
    rfl

/-- For a metacharacter-free pattern the anchored test is string equality:
the whole name must equal the pattern. -/
theorem reTestAnchored_literal (p : String) (h : isLiteralPattern p = true)
    (s : String) : reTestAnchored p s = (s == p) := by
  have hall : ∀ c ∈ p.toList, isMeta c = false := by
    intro c hc
    have hx := List.all_eq_true.mp h c hc
    simpa using hx
  simp only [reTestAnchored, compileChars_literal p.toList hall, accepts_mkLits]
  by_cases he : s = p
  · subst he; simp
  · have hl : ¬ s.toList = p.toList := fun hh => he (String.ext hh)
    have hd : ¬ s.data = p.data := hl
    simp [hd, beq_eq_false_iff_ne, he]

/-! Characterizations of the lookup methods in terms of the snapshot. -/

/-- The result component of `findByName` is the first anchored match of the
snapshot, or the not-found rejection carrying pattern and store id. -/
theorem findByName_fst (env : Env) (st : LauncherState) (p : String) :
    (findByName env st p).1 =
      match (allGames env st).1.find? (fun e => reTestAnchored p e.name) with
      | some e => Except.ok e
      | none => Except.error (StoreError.gameEntryNotFound p STORE_ID) := by
  cases hfind : (allGames env st).1.find? (fun e => reTestAnchored p e.name) <;>
    simp [findByName, hfind]

/-- The result component of `findByAppId` is the first matcher hit of the
snapshot, or the not-found rejection carrying the query text and store id. -/
theorem findByAppId_fst (env : Env) (st : LauncherState) (arg : AppIdArg) :
    (findByAppId env st arg).1 =
      match (allGames env st).1.find? (appIdMatcher arg) with
      | some e => Except.ok e
      | none => Except.error (StoreError.gameEntryNotFound (appIdQuery arg) STORE_ID) := by
  cases hfind : (allGames env st).1.find? (appIdMatcher arg) <;>
    simp [findByAppId, hfind]

/-- String boolean equality is symmetric. -/
theorem string_beq_comm (a b : String) : (a == b) = (b == a) := by
  by_cases h : a = b
  · subst h; rfl
  · rw [beq_eq_false_iff_ne.mpr h, beq_eq_false_iff_ne.mpr (Ne.symm h)]

/-- C1 counterexample: with the probe resolved absent (`mClientPath`
undefined) on a darwin environment whose data directory still holds a valid
game, `allGames()` resolves with a non-empty sequence, refuting the claimed
empty sequence. -/
theorem c1_counterexample :
    stFresh.mClientPath = none ∧ (allGames envMacTest stFresh).1 ≠ [] :=
  ⟨rfl, by decide⟩

/-- C1 (amended): with `mClientPath` undefined and the cache unset,
`allGames()` still resolves (with the empty sequence on win32 and on every
unsupported platform), and `getGameStorePath()` resolves to the explicit
absent value instead of rejecting. -/
theorem c1_clientAbsent_degrades (env : Env) (st : LauncherState)
    (hpath : st.mClientPath = none) (hcache : st.mCache = none) :
    ((env.platform = "win32" ∨ (env.platform ≠ "win32" ∧ env.platform ≠ "darwin")) →
      (allGames env st).1 = []) ∧
    getGameStorePath env st = Except.ok none := by
  constructor
  · rintro (hp | ⟨h1, h2⟩)
    · simp [allGames, hcache, getGameEntries, hp, getGameEntriesWindows, hpath]
    · simp [allGames, hcache, getGameEntries, beq_eq_false_iff_ne, h1, h2]
  · simp [getGameStorePath, hpath]

/-- Witness for C1: the amended theorem applied on win32 with a fresh state. -/
theorem c1_clientAbsent_degrades_witness :
    stFresh.mClientPath = none ∧ stFresh.mCache = none ∧
    (allGames envWinExec stFresh).1 = [] ∧
    getGameStorePath envWinExec stFresh = Except.ok none :=
  ⟨rfl, rfl, (c1_clientAbsent_degrades envWinExec stFresh rfl rfl).1 (Or.inl rfl),
    (c1_clientAbsent_degrades envWinExec stFresh rfl rfl).2⟩

/-- C2 counterexample: on an unsupported platform `getExecInfo` rejects with
the entry-not-found error, which is not the NotInstalled-class rejection
(`new Error('GOG Galaxy not installed')`) the claim states. -/
theorem c2_counterexample :
    (getExecInfo envOther stFresh "9999").1 =
      Except.error (StoreError.gameEntryNotFound "9999" "gog") ∧
    StoreError.gameEntryNotFound "9999" "gog" ≠
      StoreError.plainError "GOG Galaxy not installed" :=
  ⟨rfl, by decide⟩

/-- C2 (amended): on every platform other than win32 and darwin, `allGames()`
yields the empty sequence and `getExecInfo(appId)` always fails — with the
EntryNotFound-class error carrying the appId and the store id. -/
theorem c2_unsupported_platform (env : Env) (st : LauncherState) (appId : String)
    (h1 : env.platform ≠ "win32") (h2 : env.platform ≠ "darwin")
    (hcache : st.mCache = none) :
    (allGames env st).1 = [] ∧
    (getExecInfo env st appId).1 =
      Except.error (StoreError.gameEntryNotFound appId "gog") := by
  have hAll : (allGames env st).1 = [] := by
    simp [allGames, hcache, getGameEntries, beq_eq_false_iff_ne, h1, h2]
  refine ⟨hAll, ?_⟩
  simp [getExecInfo, hAll, STORE_ID]

/-- Witness for C2: the amended theorem applied on a linux environment. -/
theorem c2_unsupported_platform_witness :
    envOther.platform ≠ "win32" ∧ envOther.platform ≠ "darwin" ∧
    stFresh.mCache = none ∧
    (allGames envOther stFresh).1 = [] ∧
    (getExecInfo envOther stFresh "9999").1 =
      Except.error (StoreError.gameEntryNotFound "9999" "gog") :=
  ⟨by decide, by decide, rfl,
    (c2_unsupported_platform envOther stFresh "9999" (by decide) (by decide) rfl).1,
    (c2_unsupported_platform envOther stFresh "9999" (by decide) (by decide) rfl).2⟩

/-- C3: with the cache unset, the first `allGames()` performs exactly one
enumeration and memoizes its result (even when empty); a second call without
an intervening reload returns the identical snapshot and identical state,
performing no further enumeration. -/
theorem c3_allGames_memoized (env : Env) (st : LauncherState)
    (h : st.mCache = none) :
    ((allGames env st).2.1).mCache = some (allGames env st).1 ∧
    (allGames env (allGames env st).2.1).1 = (allGames env st).1 ∧
    (allGames env (allGames env st).2.1).2.1 = (allGames env st).2.1 ∧
    (allGames env st).2.2 + (allGames env (allGames env st).2.1).2.2 = 1 := by
  simp [allGames, h]

/-- Witness for C3: two consecutive calls on a fresh darwin state. -/
theorem c3_allGames_memoized_witness :
    stFresh.mCache = none ∧
    (allGames envMacTest (allGames envMacTest stFresh).2.1).1 =
      (allGames envMacTest stFresh).1 ∧
    (allGames envMacTest stFresh).2.2 +
      (allGames envMacTest (allGames envMacTest stFresh).2.1).2.2 = 1 :=
  ⟨rfl, (c3_allGames_memoized envMacTest stFresh rfl).2.1,
    (c3_allGames_memoized envMacTest stFresh rfl).2.2.2⟩

/-- C4: on win32 with base path `C:\GOG Galaxy` and a cached entry with appid
`9999` and game path `C:\Games\Foo`, `getExecInfo('9999')` yields executable
`C:\GOG Galaxy\GalaxyClient.exe` and the three arguments in exactly the order
run-command, game id, quoted path. -/
theorem c4_exec_plan_windows :
    (getExecInfo envWinExec stExec "9999").1 =
      Except.ok { execPath := "C:\\GOG Galaxy\\GalaxyClient.exe",
                  arguments := ["/command=runGame", "/gameId=9999",
                                "path=\"C:\\Games\\Foo\""] } :=
  rfl

/-- C5: for a metacharacter-free pattern, `findByName` matches with implicit
start/end anchoring — the whole title must equal the pattern, mere
containment does not match — returning the first match in snapshot order and
otherwise rejecting with the entry-not-found error carrying the pattern and
the store id `gog`; in particular the pattern `Test Game 1` does not match
the title `Test Game 10`. -/
theorem c5_findByName_anchored (env : Env) (st : LauncherState) (p : String)
    (h : isLiteralPattern p = true) :
    (∀ s, reTestAnchored p s = (s == p)) ∧
    ((findByName env st p).1 =
      match (allGames env st).1.find? (fun e => e.name == p) with
      | some e => Except.ok e
      | none => Except.error (StoreError.gameEntryNotFound p "gog")) ∧
    (∀ e, (findByName env st p).1 = Except.ok e → e.name = p) ∧
    reTestAnchored "Test Game 1" "Test Game 10" = false := by
  have hTest : ∀ s, reTestAnchored p s = (s == p) := reTestAnchored_literal p h
  have hf : (fun e : GameStoreEntry => reTestAnchored p e.name) =
      (fun e : GameStoreEntry => e.name == p) := funext fun e => hTest e.name
  have hfst := findByName_fst env st p
  rw [hf] at hfst
  refine ⟨hTest, ?_, ?_, by decide⟩
  · rw [hfst]; simp only [STORE_ID]
  · intro e he
    rw [hfst] at he
    cases hfind : (allGames env st).1.find? (fun x => x.name == p) with
    | none => rw [hfind] at he; cases he
    | some x =>
      rw [hfind] at he
      cases he
      have hpa := List.find?_some hfind
      exact eq_of_beq hpa

/-- Witness for C5: the anchored matcher applied with the literal pattern
`Test Game 1` on the darwin scenario. -/
theorem c5_findByName_anchored_witness :
    isLiteralPattern "Test Game 1" = true ∧
    reTestAnchored "Test Game 1" "Test Game 10" = false :=
  ⟨by decide,
    (c5_findByName_anchored envMacTest stFresh "Test Game 1" (by decide)).2.2.2⟩

/-- C6: `findByAppId` with a scalar returns the first entry whose appid
equals it, with a collection the first entry whose appid is a member of it;
the not-found rejection carries the scalar id or the comma-joined ids and the
store id. -/
theorem c6_findByAppId_semantics (env : Env) (st : LauncherState) :
    (∀ id, (findByAppId env st (AppIdArg.single id)).1 =
      match (allGames env st).1.find? (fun e => e.appid == id) with
      | some e => Except.ok e
      | none => Except.error (StoreError.gameEntryNotFound id "gog")) ∧
    (∀ ids, (findByAppId env st (AppIdArg.multi ids)).1 =
      match (allGames env st).1.find? (fun e => ids.contains e.appid) with
      | some e => Except.ok e
      | none => Except.error
          (StoreError.gameEntryNotFound (String.intercalate ", " ids) "gog")) ∧
    (∀ id e, (findByAppId env st (AppIdArg.single id)).1 = Except.ok e →
      e ∈ (allGames env st).1 ∧ e.appid = id) ∧
    (∀ ids e, (findByAppId env st (AppIdArg.multi ids)).1 = Except.ok e →
      e ∈ (allGames env st).1 ∧ e.appid ∈ ids) := by
  have hmS : ∀ id, appIdMatcher (AppIdArg.single id) =
      (fun e : GameStoreEntry => e.appid == id) :=
    fun id => funext fun e => string_beq_comm id e.appid
  have hmM : ∀ ids, appIdMatcher (AppIdArg.multi ids) =
      (fun e : GameStoreEntry => ids.contains e.appid) := fun ids => rfl
  refine ⟨?_, ?_, ?_, ?_⟩
  · intro id
    have hfst := findByAppId_fst env st (AppIdArg.single id)
    rw [hmS id] at hfst
    rw [hfst]; simp only [STORE_ID, appIdQuery]
  · intro ids
    have hfst := findByAppId_fst env st (AppIdArg.multi ids)
    rw [hmM ids] at hfst
    rw [hfst]; simp only [STORE_ID, appIdQuery]
  · intro id e he
    have hfst := findByAppId_fst env st (AppIdArg.single id)
    rw [hmS id] at hfst
    rw [hfst] at he
    cases hfind : (allGames env st).1.find? (fun x => x.appid == id) with
    | none => rw [hfind] at he; cases he
    | some x =>
      rw [hfind] at he
      cases he
      have hpa := List.find?_some hfind
      exact ⟨List.mem_of_find?_eq_some hfind, eq_of_beq hpa⟩
  · intro ids e he
    have hfst := findByAppId_fst env st (AppIdArg.multi ids)
    rw [hmM ids] at hfst
    rw [hfst] at he
    cases hfind : (allGames env st).1.find? (fun x => ids.contains x.appid) with
    | none => rw [hfind] at he; cases he
    | some x =>
      rw [hfind] at he
      cases he
      have hpa := List.find?_some hfind
      exact ⟨List.mem_of_find?_eq_some hfind, by simpa using hpa⟩

/-- C7: macOS enumeration includes a candidate only when its metadata names
an install directory that exists on disk: with candidates `12345` and `67890`
and only `/Games/Test Game 1` present, exactly the `12345` entry results; a
candidate whose metadata lacks the install directory is skipped without
aborting the rest; an absent data directory yields the empty sequence. -/
theorem c7_macos_enumeration :
    getGameEntriesMacOS envMacTest = [entry12345] ∧
    getGameEntriesMacOS envMacAbsent = [] ∧
    getGameEntriesMacOS envMacSkip = [entry67890] :=
  ⟨by decide, by decide, by decide⟩

/-- C8: `reloadGames` unconditionally overwrites any memoized snapshot with a
fresh enumeration against the current OS state (it resolves with no data, so
only the state changes), and the next `allGames()` returns exactly that fresh
enumeration without enumerating again. -/
theorem c8_reloadGames_fresh (env envNew : Env) (st : LauncherState) :
    (reloadGames envNew st).mCache = some (getGameEntries envNew st) ∧
    (allGames env (reloadGames envNew st)).1 = getGameEntries envNew st ∧
    (allGames env (reloadGames envNew st)).2.2 = 0 := by
  refine ⟨rfl, ?_, ?_⟩ <;> simp [allGames, reloadGames]

/-- C9: for every path and fallback, `identifyGame` returns exactly the
disjunction of the marker-file check (`gog.ico` under the path) and the
fallback's result; disagreement of the two signals only logs the warning
(second component) and leaves the returned boolean the disjunction. -/
theorem c9_identifyGame_or (env : Env) (gamePath : String)
    (fallback : String → Bool) :
    (identifyGame env gamePath fallback).1 =
      (fileExists env (pathJoin env.platform gamePath "gog.ico") ||
        fallback gamePath) ∧
    ((identifyGame env gamePath fallback).2 = true ↔
      fileExists env (pathJoin env.platform gamePath "gog.ico") ≠
        fallback gamePath) := by
  constructor
  · rfl
  · simp [identifyGame, bne_iff_ne]

/-- A state whose memoized snapshot (if any) carries only this provider's
store id; freshly constructed adapters satisfy it vacuously, and enumeration
re-establishes it. -/
def CacheValid (st : LauncherState) : Prop :=
  ∀ c, st.mCache = some c → ∀ e ∈ c, e.gameStoreId = STORE_ID

/-- An entry built from a registry subkey carries the constant store id. -/
theorem regEntry_storeId (k : RegGameKey) (e : GameStoreEntry)
    (h : regEntry k = some e) : e.gameStoreId = STORE_ID := by
  unfold regEntry at h
  cases hg : k.gameID with
  | none => rw [hg] at h; cases h
  | some gid =>
    rw [hg] at h
    cases hp : k.path with
    | none => rw [hp] at h; cases h
    | some gp =>
      rw [hp] at h
      cases hs : k.startMenu with
      | none => rw [hs] at h; cases h
      | some nm => rw [hs] at h; cases h; rfl

/-- An entry built from a macOS candidate carries the constant store id. -/
theorem macEntry_storeId (env : Env) (gamesPath gameId : String)
    (e : GameStoreEntry) (h : macEntry env gamesPath gameId = some e) :
    e.gameStoreId = STORE_ID := by
  simp only [macEntry] at h
  split at h
  · cases h
  · cases h
  · split at h
    · cases h
    · split at h
      · split at h
        · cases h; rfl
        · cases h
      · cases h

/-- Every entry any enumeration path produces carries the constant store id. -/
theorem getGameEntries_storeId (env : Env) (st : LauncherState)
    (e : GameStoreEntry) (h : e ∈ getGameEntries env st) :
    e.gameStoreId = STORE_ID := by
  unfold getGameEntries at h
  split at h
  · unfold getGameEntriesWindows at h
    split at h
    · cases h
    · split at h
      · split at h
        · rcases List.mem_filterMap.mp h with ⟨k, _, hk⟩
          exact regEntry_storeId k e hk
        · cases h
        · cases h
      · cases h
  · split at h
    · simp only [getGameEntriesMacOS] at h
      split at h
      · split at h
        · cases h
        · rcases List.mem_filterMap.mp h with ⟨g, _, hg⟩
          exact macEntry_storeId env _ g e hg
      · cases h
    · cases h

/-- C10: every entry of every snapshot produced by any enumeration path has
`gameStoreId = 'gog'`, and the invariant extends to every entry returned by
`allGames`, `findByName` and `findByAppId` from a cache-valid state. -/
theorem c10_storeId_invariant (env : Env) (st : LauncherState)
    (hst : CacheValid st) :
    (∀ e ∈ getGameEntries env st, e.gameStoreId = "gog") ∧
    (∀ e ∈ (allGames env st).1, e.gameStoreId = "gog") ∧
    (∀ p e, (findByName env st p).1 = Except.ok e → e.gameStoreId = "gog") ∧
    (∀ arg e, (findByAppId env st arg).1 = Except.ok e →
      e.gameStoreId = "gog") := by
  have hbase : ∀ e ∈ getGameEntries env st, e.gameStoreId = "gog" :=
    fun e he => getGameEntries_storeId env st e he
  have hall : ∀ e ∈ (allGames env st).1, e.gameStoreId = "gog" := by
    intro e he
    rcases hc : st.mCache with _ | c
    · rw [show (allGames env st).1 = getGameEntries env st from by
        simp [allGames, hc]] at he
      exact hbase e he
    · rw [show (allGames env st).1 = c from by simp [allGames, hc]] at he
      exact hst c hc e he
  refine ⟨hbase, hall, ?_, ?_⟩
  · intro p e hok
    rw [findByName_fst] at hok
    cases hfind : (allGames env st).1.find? (fun x => reTestAnchored p x.name) with
    | none => rw [hfind] at hok; cases hok
    | some x =>
      rw [hfind] at hok
      cases hok
      exact hall e (List.mem_of_find?_eq_some hfind)
  · intro arg e hok
    rw [findByAppId_fst] at hok
    cases hfind : (allGames env st).1.find? (appIdMatcher arg) with
    | none => rw [hfind] at hok; cases hok
    | some x =>
      rw [hfind] at hok
      cases hok
      exact hall e (List.mem_of_find?_eq_some hfind)

/-- Witness for C10: the invariant applied to the fresh darwin state and the
concrete entry its enumeration produces. -/
theorem c10_storeId_invariant_witness :
    CacheValid stFresh ∧ entry12345.gameStoreId = "gog" := by
  have hcv : CacheValid stFresh := by
    intro c hc
    simp [stFresh] at hc
  exact ⟨hcv, (c10_storeId_invariant envMacTest stFresh hcv).1 entry12345 (by decide)⟩

/-- Witness for C6: the scalar lookup applied on the darwin scenario, whose
snapshot holds exactly the `12345` entry. -/
theorem c6_findByAppId_semantics_witness :
    (findByAppId envMacTest stFresh (AppIdArg.single "12345")).1 =
      Except.ok entry12345 ∧
    entry12345 ∈ (allGames envMacTest stFresh).1 ∧ entry12345.appid = "12345" :=
  ⟨rfl, (c6_findByAppId_semantics envMacTest stFresh).2.2.1 "12345" entry12345 rfl⟩
